import Mathlib

/-!
Verification development for the heatmap descriptor module
(`pageserver/src/tenant/secondary/heatmap.rs`).

The Rust data types are shallowly embedded as Lean structures, and the
module's operations (`hot_layers`, `into_hot_layers`, `all_layers`,
`into_timelines_index`, `get_stats`, `strip_atimes`) are translated as
Lean functions over those structures.  The serde-derived wire encoding is
embedded as functions to and from a small JSON value type.

Types that live outside this module (`Generation`, `TimelineId`,
`LayerName`, `LayerFileMetadata`, `SystemTime`) are modelled from the
specification, which treats them as opaque serializable values; each such
definition carries a doc comment saying exactly what is modelled.
-/

set_option autoImplicit false

namespace Heatmap

/-- Modelled from the spec: `generation` is an "opaque comparable token"
(`utils::generation::Generation` is outside this module's source); modelled
as a natural number, encoded on the wire as a JSON integer. -/
abbrev Generation : Type := Nat

/-- Modelled from the spec: `timeline_id` is a "unique identifier of the
timeline, textually encoded on the wire" in "its canonical string form"
(`utils::id::TimelineId` is outside this module's source); modelled as a
string. -/
abbrev TimelineId : Type := String

/-- Modelled from the spec: a layer `name` is an "opaque, semantically unique
identifier of a layer file", an "opaque comparable/serializable value"
(`LayerName` is outside this module's source); modelled as a string. -/
abbrev LayerName : Type := String

/-- Modelled from the spec: `metadata` is an "opaque serializable value"
whose "byte-size field is read by Aggregate Statistics"
(`LayerFileMetadata` is outside this module's source); modelled as a record
carrying the byte size. `file_size` is a Rust `u64`, so well-formed values
have `file_size < 2^64`. -/
structure LayerFileMetadata where
  file_size : Nat
deriving DecidableEq

/-- Modelled from the spec: `access_time` is a "point in time (seconds
resolution)" that is "encoded as an integer epoch-seconds value on the wire"
(`SystemTime` with `TimestampSeconds<i64>` serialization); modelled as an
integer number of seconds since the epoch. -/
abbrev AccessTime : Type := Int

/-- `SystemTime::UNIX_EPOCH`, the canonical epoch start. -/
def UNIX_EPOCH : AccessTime := (0 : Int)

/-- `HeatMapLayer`: one layer's name, metadata, last access time and
hot/cold flag. `cold` carries `#[serde(default)]` in the source. -/
structure HeatMapLayer where
  name : LayerName
  metadata : LayerFileMetadata
  access_time : AccessTime
  cold : Bool
deriving DecidableEq

/-- `HeatMapLayer::new`. -/
def HeatMapLayer.new (name : LayerName) (metadata : LayerFileMetadata)
    (access_time : AccessTime) (cold : Bool) : HeatMapLayer :=
  { name := name, metadata := metadata, access_time := access_time, cold := cold }

/-- `HeatMapTimeline`: a timeline id together with its ordered layer list. -/
structure HeatMapTimeline where
  timeline_id : TimelineId
  layers : List HeatMapLayer
deriving DecidableEq

/-- `HeatMapTimeline::new`. -/
def HeatMapTimeline.new (timeline_id : TimelineId) (layers : List HeatMapLayer) :
    HeatMapTimeline :=
  { timeline_id := timeline_id, layers := layers }

/-- `HeatMapTenant`: generation hint, timelines, optional upload period.
`upload_period_ms` is a Rust `Option<u128>` with `#[serde(default)]`, so
well-formed values are below `2^128`. -/
structure HeatMapTenant where
  generation : Generation
  timelines : List HeatMapTimeline
  upload_period_ms : Option Nat
deriving DecidableEq

/-- `HeatMapTimeline::into_hot_layers`: consumes the timeline and yields the
layers whose `cold` flag is unset (`self.layers.into_iter().filter(|l| !l.cold)`). -/
def HeatMapTimeline.into_hot_layers (t : HeatMapTimeline) : List HeatMapLayer :=
  t.layers.filter (fun l => !l.cold)

/-- `HeatMapTimeline::hot_layers`: borrows the timeline and yields the layers
whose `cold` flag is unset (`self.layers.iter().filter(|l| !l.cold)`). -/
def HeatMapTimeline.hot_layers (t : HeatMapTimeline) : List HeatMapLayer :=
  t.layers.filter (fun l => !l.cold)

/-- `HeatMapTimeline::all_layers`: yields every layer in storage order. -/
def HeatMapTimeline.all_layers (t : HeatMapTimeline) : List HeatMapLayer :=
  t.layers

/-- `HeatMapStats`: `bytes` is a Rust `u64`, `layers` a `usize` count. -/
structure HeatMapStats where
  bytes : Nat
  layers : Nat
deriving DecidableEq

/-- `HeatMapTenant::get_stats`: for every timeline, for every hot layer,
accumulate `layers += 1` and `bytes += layer.metadata.file_size`.  `bytes`
is a `u64`, so the addition is carried out modulo `2^64` (Rust release
builds wrap on overflow). -/
def HeatMapTenant.get_stats (t : HeatMapTenant) : HeatMapStats :=
  t.timelines.foldl
    (fun stats tl =>
      tl.hot_layers.foldl
        (fun s l =>
          { layers := s.layers + 1,
            bytes := (s.bytes + l.metadata.file_size) % 2 ^ 64 })
        stats)
    { bytes := 0, layers := 0 }

/-- `HeatMapTenant::strip_atimes`: reset every layer's `access_time` to
`UNIX_EPOCH`, carrying every other field through unchanged. -/
def HeatMapTenant.strip_atimes (t : HeatMapTenant) : HeatMapTenant :=
  { timelines :=
      t.timelines.map (fun tl =>
        { tl with layers := tl.layers.map (fun l => { l with access_time := UNIX_EPOCH }) }),
    generation := t.generation,
    upload_period_ms := t.upload_period_ms }

/-- `std::collections::HashMap` modelled as an association list whose `insert`
replaces the value of an existing key in place and otherwise appends.  The
map built by `collect()` from an iterator inserts the pairs sequentially, so
a later pair with an equal key overwrites the earlier one. -/
def hmInsert (m : List (TimelineId × HeatMapTimeline)) (k : TimelineId)
    (v : HeatMapTimeline) : List (TimelineId × HeatMapTimeline) :=
  match m with
  | [] => [(k, v)]
  | (k', v') :: rest => if k' = k then (k, v) :: rest else (k', v') :: hmInsert rest k v

/-- `HashMap::get`, on the association-list model. -/
def hmLookup (m : List (TimelineId × HeatMapTimeline)) (k : TimelineId) :
    Option HeatMapTimeline :=
  match m with
  | [] => none
  | (k', v') :: rest => if k' = k then some v' else hmLookup rest k

/-- `HeatMapTenant::into_timelines_index`: collect `(timeline_id, timeline)`
pairs into a `HashMap` by sequential insertion. -/
def HeatMapTenant.into_timelines_index (t : HeatMapTenant) :
    List (TimelineId × HeatMapTimeline) :=
  t.timelines.foldl (fun m htl => hmInsert m htl.timeline_id htl) []

/-- Spec-side "last Timeline Descriptor in the sequence bearing that id":
the first match when scanning the reversed sequence. -/
def lastWithId (id : TimelineId) (tls : List HeatMapTimeline) :
    Option HeatMapTimeline :=
  tls.reverse.find? (fun tl => tl.timeline_id == id)

/-- Spec-side count of hot layers across all timelines ("layers is the number
of hot (cold = false) layers across all timelines"). -/
def hotLayerCount (t : HeatMapTenant) : Nat :=
  (t.timelines.map (fun tl => (tl.layers.filter (fun l => l.cold = false)).length)).sum

/-- Spec-side exact mathematical sum of `metadata.file_size` over the hot
layers of all timelines. -/
def hotLayerBytes (t : HeatMapTenant) : Nat :=
  (t.timelines.map
    (fun tl => ((tl.layers.filter (fun l => l.cold = false)).map
      (fun l => l.metadata.file_size)).sum)).sum

/-- A self-describing structured value, standing for the JSON documents that
serde produces and consumes. -/
inductive Json where
  | null : Json
  | bool : Bool → Json
  | num : Int → Json
  | str : String → Json
  | arr : List Json → Json
  | obj : List (String × Json) → Json

/-- First value bound to a field name in an encoded object (serde's derived
deserializers match object fields by name, in any order). -/
def getField (fs : List (String × Json)) (k : String) : Option Json :=
  match fs with
  | [] => none
  | (k', v) :: rest => if k' = k then some v else getField rest k

/-- All-or-nothing elementwise decoding of an encoded array, mirroring serde's
sequence deserialization: the first failing element fails the whole array. -/
def decodeList {α : Type} (f : Json → Option α) : List Json → Option (List α)
  | [] => some []
  | j :: js =>
    match f j with
    | none => none
    | some a =>
      match decodeList f js with
      | none => none
      | some as => some (a :: as)

/-- View an encoded value as an object, as serde's derived struct
deserializers require. -/
def asObj : Json → Option (List (String × Json))
  | .obj fs => some fs
  | _ => none

/-- View an encoded value as an array. -/
def asArr : Json → Option (List Json)
  | .arr js => some js
  | _ => none

/-- View an encoded value as a string. -/
def asStr : Json → Option String
  | .str s => some s
  | _ => none

/-- View an encoded value as an integer. -/
def asNum : Json → Option Int
  | .num n => some n
  | _ => none

/-- View an encoded value as a boolean. -/
def asBool : Json → Option Bool
  | .bool b => some b
  | _ => none

/-- Wire form of `Generation` (see its model comment): a JSON integer. -/
def encodeGeneration (g : Generation) : Json :=
  .num g

/-- Decode a `Generation` from the wire: any non-negative integer. -/
def decodeGeneration (j : Json) : Option Generation :=
  (asNum j).bind fun n =>
  if 0 ≤ n then some n.toNat else none

/-- Wire form of `LayerFileMetadata` (see its model comment): an object whose
byte-size field is a JSON integer in `u64` range. -/
def encodeMetadata (m : LayerFileMetadata) : Json :=
  .obj [("file_size", .num m.file_size)]

/-- Decode a `LayerFileMetadata`: requires the byte-size field as an integer
in `u64` range. -/
def decodeMetadata (j : Json) : Option LayerFileMetadata :=
  (asObj j).bind fun fs =>
  (getField fs "file_size").bind fun sj =>
  (asNum sj).bind fun n =>
  if 0 ≤ n ∧ n.toNat < 2 ^ 64 then some ⟨n.toNat⟩ else none

/-- Serialization of `HeatMapLayer`: `name` (textual), `metadata`,
`access_time` as integer epoch-seconds (`TimestampSeconds<i64>`), and the
`cold` boolean, in declaration order. -/
def encodeLayer (l : HeatMapLayer) : Json :=
  .obj [("name", .str l.name),
        ("metadata", encodeMetadata l.metadata),
        ("access_time", .num l.access_time),
        ("cold", .bool l.cold)]

/-- Deserialization of the `cold` field: `#[serde(default)]` makes a missing
field decode to `false`, while a present non-boolean one is an error. -/
def decodeCold (o : Option Json) : Option Bool :=
  match o with
  | none => some false
  | some cj => asBool cj

/-- Deserialization of `HeatMapLayer`: `name`, `metadata` and `access_time`
are required (a missing or ill-shaped one is a decode error); `cold` is
optional with default `false`. -/
def decodeLayer (j : Json) : Option HeatMapLayer :=
  (asObj j).bind fun fs =>
  (getField fs "name").bind fun nj =>
  (asStr nj).bind fun nm =>
  (getField fs "metadata").bind fun mj =>
  (decodeMetadata mj).bind fun md =>
  (getField fs "access_time").bind fun tj =>
  (asNum tj).bind fun at_ =>
  (decodeCold (getField fs "cold")).bind fun cold =>
  some ⟨nm, md, at_, cold⟩

/-- Serialization of `HeatMapTimeline`: the timeline id in canonical string
form (`DisplayFromStr`) and the encoded layer array. -/
def encodeTimeline (t : HeatMapTimeline) : Json :=
  .obj [("timeline_id", .str t.timeline_id),
        ("layers", .arr (t.layers.map encodeLayer))]

/-- Deserialization of `HeatMapTimeline`: both fields are required. -/
def decodeTimeline (j : Json) : Option HeatMapTimeline :=
  (asObj j).bind fun fs =>
  (getField fs "timeline_id").bind fun ij =>
  (asStr ij).bind fun id =>
  (getField fs "layers").bind fun lj =>
  (asArr lj).bind fun ljs =>
  (decodeList decodeLayer ljs).bind fun ls =>
  some ⟨id, ls⟩

/-- Serialization of `HeatMapTenant`: `generation`, the encoded timeline
array, and `upload_period_ms` (serde writes `Option::None` as `null`), in
declaration order. -/
def encodeTenant (t : HeatMapTenant) : Json :=
  .obj [("generation", encodeGeneration t.generation),
        ("timelines", .arr (t.timelines.map encodeTimeline)),
        ("upload_period_ms",
          match t.upload_period_ms with
          | none => .null
          | some n => .num n)]

/-- Deserialization of the `upload_period_ms` field: `#[serde(default)]`
makes a missing field decode to `none`; `null` also decodes to `none`; an
integer must lie in `u128` range. -/
def decodeUploadPeriod (o : Option Json) : Option (Option Nat) :=
  match o with
  | none => some none
  | some .null => some none
  | some (.num n) => if 0 ≤ n ∧ n.toNat < 2 ^ 128 then some (some n.toNat) else none
  | some _ => none

/-- Deserialization of `HeatMapTenant`: `generation` and `timelines` are
required (a missing or ill-shaped one is a decode error); `upload_period_ms`
is optional with default `none`. -/
def decodeTenant (j : Json) : Option HeatMapTenant :=
  (asObj j).bind fun fs =>
  (getField fs "generation").bind fun gj =>
  (decodeGeneration gj).bind fun g =>
  (getField fs "timelines").bind fun tj =>
  (asArr tj).bind fun tjs =>
  (decodeList decodeTimeline tjs).bind fun tls =>
  (decodeUploadPeriod (getField fs "upload_period_ms")).bind fun up =>
  some ⟨g, tls, up⟩

/-- A layer value whose byte size fits the Rust `u64` field. -/
def wfLayer (l : HeatMapLayer) : Bool :=
  l.metadata.file_size < 2 ^ 64

/-- A timeline value all of whose layers are representable. -/
def wfTimeline (t : HeatMapTimeline) : Bool :=
  t.layers.all wfLayer

/-- A tenant value representable by the Rust types: every byte size fits
`u64` and the upload period, when present, fits `u128`. -/
def wfTenant (t : HeatMapTenant) : Bool :=
  (match t.upload_period_ms with
   | none => true
   | some n => n < 2 ^ 128) &&
  t.timelines.all wfTimeline

/-- Encoding of a layer produced before the hot/cold flag existed: the
`cold` field is omitted entirely. -/
def encodeLayerLegacy (l : HeatMapLayer) : Json :=
  .obj [("name", .str l.name),
        ("metadata", encodeMetadata l.metadata),
        ("access_time", .num l.access_time)]

/-- Encoding of a timeline whose layers all omit the `cold` field. -/
def encodeTimelineLegacy (t : HeatMapTimeline) : Json :=
  .obj [("timeline_id", .str t.timeline_id),
        ("layers", .arr (t.layers.map encodeLayerLegacy))]

/-- Encoding of a tenant produced before `upload_period_ms` and `cold`
existed: both fields are omitted entirely. -/
def encodeTenantLegacy (t : HeatMapTenant) : Json :=
  .obj [("generation", encodeGeneration t.generation),
        ("timelines", .arr (t.timelines.map encodeTimelineLegacy))]

/-- The defaults the decoder applies to a legacy document: `upload_period_ms`
absent and every layer's `cold` flag `false`. -/
def applyLegacyDefaults (t : HeatMapTenant) : HeatMapTenant :=
  { generation := t.generation,
    upload_period_ms := none,
    timelines :=
      t.timelines.map (fun tl =>
        { tl with layers := tl.layers.map (fun l => { l with cold := false }) }) }

/-- The stats example from the spec: `T1` has hot layers of sizes 100 and
200 and a cold layer of size 50; `T2` has a hot layer of size 300. -/
def statsExampleTenant : HeatMapTenant :=
  { generation := 1,
    timelines :=
      [ HeatMapTimeline.new "T1"
          [ HeatMapLayer.new "l1" ⟨100⟩ 10 false,
            HeatMapLayer.new "l2" ⟨200⟩ 11 false,
            HeatMapLayer.new "l3" ⟨50⟩ 12 true ],
        HeatMapTimeline.new "T2"
          [ HeatMapLayer.new "l4" ⟨300⟩ 13 false ] ],
    upload_period_ms := none }

/-- A representable tenant on which the `u64` byte accumulator wraps: three
hot layers of sizes `2^63`, `2^63` and `5` (each a valid `u64`). -/
def statsOverflowTenant : HeatMapTenant :=
  { generation := 1,
    timelines :=
      [ HeatMapTimeline.new "T1"
          [ HeatMapLayer.new "l1" ⟨2 ^ 63⟩ 0 false,
            HeatMapLayer.new "l2" ⟨2 ^ 63⟩ 0 false,
            HeatMapLayer.new "l3" ⟨5⟩ 0 false ] ],
    upload_period_ms := none }

/-- A second representable tenant whose hot sizes sum to exactly `2^64`,
wrapping the `u64` byte accumulator to `0`. -/
def bytesOverflowTenant : HeatMapTenant :=
  { generation := 7,
    timelines :=
      [ HeatMapTimeline.new "T1"
          [ HeatMapLayer.new "l1" ⟨2 ^ 63⟩ 0 false,
            HeatMapLayer.new "l2" ⟨2 ^ 63⟩ 0 false ] ],
    upload_period_ms := none }

/-- Timelines with ids `[A, B, A]` for the duplicate-id index example. -/
def idxTimelineA1 : HeatMapTimeline :=
  HeatMapTimeline.new "A" [HeatMapLayer.new "a1" ⟨1⟩ 0 false]

/-- The second timeline of the index example, with id `B`. -/
def idxTimelineB : HeatMapTimeline :=
  HeatMapTimeline.new "B" [HeatMapLayer.new "b1" ⟨2⟩ 0 false]

/-- The third timeline of the index example, bearing the duplicate id `A`. -/
def idxTimelineA3 : HeatMapTimeline :=
  HeatMapTimeline.new "A" [HeatMapLayer.new "a3" ⟨3⟩ 0 true]

/-- A tenant whose timeline ids are `[A, B, A]` (a duplicate). -/
def idxExampleTenant : HeatMapTenant :=
  { generation := 42,
    timelines := [idxTimelineA1, idxTimelineB, idxTimelineA3],
    upload_period_ms := none }

/-- A tenant exercising every field for the round-trip witness: a present
upload period, a negative access time, a hot and a cold layer. -/
def rtExampleTenant : HeatMapTenant :=
  { generation := 3,
    timelines :=
      [ HeatMapTimeline.new "tl1"
          [ HeatMapLayer.new "la" ⟨123⟩ (-7) true,
            HeatMapLayer.new "lb" ⟨456⟩ 1700000000 false ] ],
    upload_period_ms := some 60000 }

/-- A hot layer for the cold-omitted round-trip witness. -/
def rtExampleHotLayer : HeatMapLayer :=
  HeatMapLayer.new "lc" ⟨9⟩ 5 false

/-- A tenant with an upload period and a cold layer, for the legacy-decoding
witness: its legacy encoding drops both, so the decoder must restore the
defaults. -/
def legacyExampleTenant : HeatMapTenant :=
  { generation := 9,
    timelines := [HeatMapTimeline.new "tl2" [HeatMapLayer.new "ld" ⟨10⟩ 4 true]],
    upload_period_ms := some 1000 }

/-- The source's hot predicate `!l.cold` filters the same layers as the
spec's wording `cold = false`. -/
lemma filter_not_cold_eq (ls : List HeatMapLayer) :
    ls.filter (fun l => !l.cold) = ls.filter (fun l => l.cold = false) :=
  List.filter_congr fun l _ => by cases h : l.cold <;> simp [h]

/-- Closed form of the per-timeline accumulation step of `get_stats`. -/
lemma stats_layer_foldl (ls : List HeatMapLayer) (s : HeatMapStats)
    (h : s.bytes < 2 ^ 64) :
    ls.foldl
      (fun s l =>
        { layers := s.layers + 1,
          bytes := (s.bytes + l.metadata.file_size) % 2 ^ 64 })
      s
    = { bytes := (s.bytes + (ls.map fun l => l.metadata.file_size).sum) % 2 ^ 64,
        layers := s.layers + ls.length } := by
  induction ls generalizing s with
  | nil =>
    simp only [List.foldl_nil, List.map_nil, List.sum_nil, Nat.add_zero, List.length_nil,
      Nat.mod_eq_of_lt h]
  | cons l ls ih =>
    rw [List.foldl_cons, ih _ (Nat.mod_lt _ (by norm_num))]
    simp only [List.map_cons, List.sum_cons, List.length_cons, HeatMapStats.mk.injEq]
    constructor
    · rw [Nat.mod_add_mod, Nat.add_assoc]
    · omega

/-- Closed form of the tenant-level accumulation of `get_stats`. -/
lemma stats_timeline_foldl (tls : List HeatMapTimeline) (s : HeatMapStats)
    (h : s.bytes < 2 ^ 64) :
    tls.foldl
      (fun stats tl =>
        tl.hot_layers.foldl
          (fun s l =>
            { layers := s.layers + 1,
              bytes := (s.bytes + l.metadata.file_size) % 2 ^ 64 })
          stats)
      s
    = { bytes :=
          (s.bytes +
            (tls.map fun tl =>
              (tl.hot_layers.map fun l => l.metadata.file_size).sum).sum) % 2 ^ 64,
        layers := s.layers + (tls.map fun tl => tl.hot_layers.length).sum } := by
  induction tls generalizing s with
  | nil =>
    simp only [List.foldl_nil, List.map_nil, List.sum_nil, Nat.add_zero, List.length_nil,
      Nat.mod_eq_of_lt h]
  | cons tl tls ih =>
    rw [List.foldl_cons, stats_layer_foldl _ _ h, ih _ (Nat.mod_lt _ (by norm_num))]
    simp only [List.map_cons, List.sum_cons, HeatMapStats.mk.injEq]
    constructor
    · rw [Nat.mod_add_mod, Nat.add_assoc]
    · omega

/-- `get_stats` counts the hot layers exactly and sums their sizes in the
`u64` accumulator, i.e. modulo `2^64`. -/
lemma get_stats_eq (t : HeatMapTenant) :
    t.get_stats
    = { bytes := hotLayerBytes t % 2 ^ 64, layers := hotLayerCount t } := by
  rw [HeatMapTenant.get_stats, stats_timeline_foldl _ _ (by norm_num)]
  simp only [Nat.zero_add, HeatMapStats.mk.injEq]
  constructor
  · rw [hotLayerBytes]
    congr 2
    refine List.map_congr_left fun tl _ => ?_
    rw [HeatMapTimeline.hot_layers, filter_not_cold_eq]
  · rw [hotLayerCount]
    congr 1
    refine List.map_congr_left fun tl _ => ?_
    rw [HeatMapTimeline.hot_layers, filter_not_cold_eq]

/-- Looking up after an insert: the inserted key maps to the new value, any
other key is unaffected. -/
lemma hmLookup_hmInsert (m : List (TimelineId × HeatMapTimeline)) (k k' : TimelineId)
    (v : HeatMapTimeline) :
    hmLookup (hmInsert m k v) k' = if k = k' then some v else hmLookup m k' := by
  induction m with
  | nil =>
    rw [hmInsert]
    rfl
  | cons p rest ih =>
    obtain ⟨k₀, v₀⟩ := p
    rw [hmInsert]
    by_cases h0 : k₀ = k
    · rw [if_pos h0]
      subst h0
      rw [hmLookup, hmLookup]
      by_cases h1 : k₀ = k'
      · rw [if_pos h1, if_pos h1]
      · rw [if_neg h1, if_neg h1, if_neg h1]
    · rw [hmLookup, if_neg h0, hmLookup, ih]
      by_cases h1 : k₀ = k'
      · have hk : ¬k = k' := fun hk => h0 (h1.trans hk.symm)
        rw [if_pos h1, if_neg hk, if_pos h1]
      · rw [if_neg h1, if_neg h1]

/-- Closed form of the index-building fold: looking up `id` finds the last
timeline with that id among the inserted ones, else falls back to the
initial map. -/
lemma hmLookup_index_foldl (tls : List HeatMapTimeline)
    (m : List (TimelineId × HeatMapTimeline)) (id : TimelineId) :
    hmLookup (tls.foldl (fun m htl => hmInsert m htl.timeline_id htl) m) id
    = (lastWithId id tls).or (hmLookup m id) := by
  induction tls generalizing m with
  | nil =>
    rw [List.foldl_nil, lastWithId, List.reverse_nil, List.find?_nil, Option.none_or]
  | cons t ts ih =>
    rw [List.foldl_cons, ih, lastWithId, lastWithId, List.reverse_cons, List.find?_append,
      Option.or_assoc, hmLookup_hmInsert]
    congr 1
    by_cases h : t.timeline_id = id
    · rw [if_pos h]
      have : (List.find? (fun tl => tl.timeline_id == id) [t]) = some t := by
        rw [List.find?_cons_of_pos _ (by simp [h])]
      rw [this, Option.or_some]
    · rw [if_neg h]
      have : (List.find? (fun tl => tl.timeline_id == id) [t]) = none := by
        rw [List.find?_cons_of_neg _ (by simp [h]), List.find?_nil]
      rw [this, Option.none_or]

/-- Mapping a constantly-failing continuation over an optional value fails. -/
lemma bind_const_none {α β : Type} (o : Option α) :
    o.bind (fun _ => (none : Option β)) = none := by
  cases o <;> rfl

/-- Decoding an encoded array succeeds elementwise. -/
lemma decodeList_map_eq_map {α β : Type} (f : Json → Option β) (g : α → Json)
    (g' : α → β) (xs : List α) (h : ∀ x ∈ xs, f (g x) = some (g' x)) :
    decodeList f (xs.map g) = some (xs.map g') := by
  induction xs with
  | nil => rfl
  | cons x xs ih =>
    rw [List.map_cons, decodeList, h x (List.mem_cons_self x xs),
      ih fun y hy => h y (List.mem_cons_of_mem x hy), List.map_cons]

/-- A failing element fails the whole encoded array. -/
lemma decodeList_eq_none_of_mem {α : Type} (f : Json → Option α) (js : List Json)
    (j : Json) (hj : j ∈ js) (hf : f j = none) :
    decodeList f js = none := by
  induction js with
  | nil => cases hj
  | cons a as ih =>
    rw [decodeList]
    rcases List.mem_cons.mp hj with h | h
    · subst h
      rw [hf]
    · cases ha : f a
      · rfl
      · rw [ih h]

/-- `getField` finds the head field. -/
lemma getField_cons_self (k : String) (v : Json) (rest : List (String × Json)) :
    getField ((k, v) :: rest) k = some v := by
  rw [getField, if_pos rfl]

/-- `getField` skips a head field with a different name. -/
lemma getField_cons_ne (k k' : String) (v : Json) (rest : List (String × Json))
    (h : ¬k' = k) :
    getField ((k', v) :: rest) k = getField rest k := by
  rw [getField, if_neg h]

/-- Round trip for `LayerFileMetadata`. -/
lemma decodeMetadata_encodeMetadata (m : LayerFileMetadata)
    (h : m.file_size < 2 ^ 64) :
    decodeMetadata (encodeMetadata m) = some m := by
  obtain ⟨n⟩ := m
  rw [encodeMetadata, decodeMetadata]
  simp only [asObj, Option.some_bind, getField_cons_self, asNum, Int.toNat_natCast]
  rw [if_pos ⟨Int.natCast_nonneg n, h⟩]

/-- Decoding an encoded array recovers the original elements. -/
lemma decodeList_map_eq_some {α : Type} (f : Json → Option α) (g : α → Json)
    (xs : List α) (h : ∀ x ∈ xs, f (g x) = some x) :
    decodeList f (xs.map g) = some xs := by
  induction xs with
  | nil => rfl
  | cons x xs ih =>
    rw [List.map_cons, decodeList, h x (List.mem_cons_self x xs),
      ih fun y hy => h y (List.mem_cons_of_mem x hy)]

/-- Round trip for `HeatMapLayer`. -/
lemma decodeLayer_encodeLayer (l : HeatMapLayer) (h : wfLayer l = true) :
    decodeLayer (encodeLayer l) = some l := by
  obtain ⟨nm, md, at_, cold⟩ := l
  rw [wfLayer, decide_eq_true_eq] at h
  rw [encodeLayer, decodeLayer]
  simp only [asObj, Option.some_bind, getField_cons_self, getField_cons_ne,
    String.reduceEq, not_false_eq_true, asStr, asNum, decodeCold, asBool,
    decodeMetadata_encodeMetadata _ h]

/-- Round trip for `HeatMapTimeline`. -/
lemma decodeTimeline_encodeTimeline (t : HeatMapTimeline) (h : wfTimeline t = true) :
    decodeTimeline (encodeTimeline t) = some t := by
  obtain ⟨id, ls⟩ := t
  rw [wfTimeline, List.all_eq_true] at h
  rw [encodeTimeline, decodeTimeline]
  simp only [asObj, Option.some_bind, getField_cons_self, getField_cons_ne,
    String.reduceEq, not_false_eq_true, asStr, asArr]
  rw [decodeList_map_eq_some decodeLayer encodeLayer ls
    (fun l hl => decodeLayer_encodeLayer l (h l hl))]
  rfl

/-- Round trip for `HeatMapTenant`. -/
lemma decodeTenant_encodeTenant (t : HeatMapTenant) (h : wfTenant t = true) :
    decodeTenant (encodeTenant t) = some t := by
  obtain ⟨g, tls, up⟩ := t
  rw [wfTenant, Bool.and_eq_true, List.all_eq_true] at h
  obtain ⟨hup, htls⟩ := h
  rw [encodeTenant, decodeTenant]
  simp only [asObj, Option.some_bind, getField_cons_self, getField_cons_ne,
    String.reduceEq, not_false_eq_true, encodeGeneration, decodeGeneration,
    asNum, asArr]
  rw [if_pos (Int.natCast_nonneg g)]
  simp only [Int.toNat_natCast, Option.some_bind]
  rw [decodeList_map_eq_some decodeTimeline encodeTimeline tls
    (fun tl htl => decodeTimeline_encodeTimeline tl (htls tl htl))]
  simp only [Option.some_bind]
  cases up with
  | none => rfl
  | some p =>
    rw [decide_eq_true_eq] at hup
    rw [decodeUploadPeriod]
    rw [if_pos ⟨Int.natCast_nonneg p, by rw [Int.toNat_natCast]; exact hup⟩]
    simp only [Int.toNat_natCast, Option.some_bind]

/-- `getField` on an empty object finds nothing. -/
lemma getField_nil (k : String) : getField [] k = none := rfl

/-- Decoding a layer encoded without its `cold` field applies the default
`cold := false`. -/
lemma decodeLayer_encodeLayerLegacy (l : HeatMapLayer) (h : wfLayer l = true) :
    decodeLayer (encodeLayerLegacy l) = some { l with cold := false } := by
  obtain ⟨nm, md, at_, cold⟩ := l
  rw [wfLayer, decide_eq_true_eq] at h
  rw [encodeLayerLegacy, decodeLayer]
  simp only [asObj, Option.some_bind, getField_cons_self, getField_cons_ne,
    String.reduceEq, not_false_eq_true, asStr, asNum, getField_nil, decodeCold,
    decodeMetadata_encodeMetadata _ h]

/-- Decoding a timeline whose layers were encoded without `cold` fields. -/
lemma decodeTimeline_encodeTimelineLegacy (t : HeatMapTimeline)
    (h : wfTimeline t = true) :
    decodeTimeline (encodeTimelineLegacy t)
    = some { t with layers := t.layers.map (fun l => { l with cold := false }) } := by
  obtain ⟨id, ls⟩ := t
  rw [wfTimeline, List.all_eq_true] at h
  rw [encodeTimelineLegacy, decodeTimeline]
  simp only [asObj, Option.some_bind, getField_cons_self, getField_cons_ne,
    String.reduceEq, not_false_eq_true, asStr, asArr]
  rw [decodeList_map_eq_map decodeLayer encodeLayerLegacy
    (fun l => { l with cold := false }) ls
    (fun l hl => decodeLayer_encodeLayerLegacy l (h l hl))]
  rfl

/-- Decoding a tenant encoded without `upload_period_ms` and without any
`cold` field applies the defaults everywhere. -/
lemma decodeTenant_encodeTenantLegacy (t : HeatMapTenant) (h : wfTenant t = true) :
    decodeTenant (encodeTenantLegacy t) = some (applyLegacyDefaults t) := by
  obtain ⟨g, tls, up⟩ := t
  rw [wfTenant, Bool.and_eq_true, List.all_eq_true] at h
  obtain ⟨-, htls⟩ := h
  rw [encodeTenantLegacy, decodeTenant]
  simp only [asObj, Option.some_bind, getField_cons_self, getField_cons_ne,
    String.reduceEq, not_false_eq_true, encodeGeneration, decodeGeneration,
    asNum, asArr, getField_nil]
  rw [if_pos (Int.natCast_nonneg g)]
  simp only [Int.toNat_natCast, Option.some_bind]
  rw [decodeList_map_eq_map decodeTimeline encodeTimelineLegacy
    (fun tl => { tl with layers := tl.layers.map (fun l => { l with cold := false }) }) tls
    (fun tl htl => decodeTimeline_encodeTimelineLegacy tl (htls tl htl))]
  simp only [Option.some_bind, decodeUploadPeriod, applyLegacyDefaults]

/-- C2: for every Timeline Descriptor `t`, `hot_layers t` is exactly the
subsequence of `all_layers t` made of the layers whose `cold` flag is
`false`, in the same relative order. -/
theorem hot_layers_eq_filter_not_cold (t : HeatMapTimeline) :
    t.hot_layers = t.all_layers.filter (fun l => l.cold = false) ∧
    List.Sublist t.hot_layers t.all_layers := by
  constructor
  · refine List.filter_congr ?_
    intro l _
    cases h : l.cold <;> simp [h]
  · exact List.filter_sublist _

/-- C10: the consuming hot-layer filter `into_hot_layers` and the borrowing
one `hot_layers` yield the same layers in the same order for the same
underlying timeline. -/
theorem into_hot_layers_eq_hot_layers (t : HeatMapTimeline) :
    t.into_hot_layers = t.hot_layers := rfl

/-- C5: `strip_atimes` never fails (it is a total function) and returns a
descriptor with the same generation, the same upload period, and timeline
for timeline (same count and order) the same id and layer for layer (same
count and order) the same name, metadata and cold flag, with every
access time reset to the epoch start. -/
theorem strip_atimes_frame (t : HeatMapTenant) :
    t.strip_atimes.generation = t.generation ∧
    t.strip_atimes.upload_period_ms = t.upload_period_ms ∧
    List.Forall₂
      (fun tl tl' =>
        tl'.timeline_id = tl.timeline_id ∧
        List.Forall₂
          (fun l l' =>
            l'.name = l.name ∧ l'.metadata = l.metadata ∧ l'.cold = l.cold ∧
            l'.access_time = UNIX_EPOCH)
          tl.layers tl'.layers)
      t.timelines t.strip_atimes.timelines := by
  refine ⟨rfl, rfl, ?_⟩
  rw [HeatMapTenant.strip_atimes]
  rw [List.forall₂_map_right_iff, List.forall₂_same]
  intro tl _
  refine ⟨rfl, ?_⟩
  rw [List.forall₂_map_right_iff, List.forall₂_same]
  intro l _
  exact ⟨rfl, rfl, rfl, rfl⟩

/-- C6: `strip_atimes` is idempotent; in its result every layer's access
time is the epoch start, and generation and upload period are unchanged. -/
theorem strip_atimes_idem (t : HeatMapTenant) :
    t.strip_atimes.strip_atimes = t.strip_atimes ∧
    (t.strip_atimes.timelines.Forall fun tl =>
      tl.layers.Forall fun l => l.access_time = UNIX_EPOCH) ∧
    t.strip_atimes.generation = t.generation ∧
    t.strip_atimes.upload_period_ms = t.upload_period_ms := by
  refine ⟨?_, ?_, rfl, rfl⟩
  · cases t with
    | mk g tls up =>
      simp only [HeatMapTenant.strip_atimes, List.map_map, HeatMapTenant.mk.injEq,
        and_true, true_and]
      refine List.map_congr_left ?_
      intro tl _
      simp [List.map_map, Function.comp]
  · rw [List.forall_iff_forall_mem]
    intro tl htl
    rw [List.forall_iff_forall_mem]
    intro l hl
    simp only [HeatMapTenant.strip_atimes, List.mem_map] at htl
    obtain ⟨tl₀, -, rfl⟩ := htl
    simp only [List.mem_map] at hl
    obtain ⟨l₀, -, rfl⟩ := hl
    rfl

/-- C3 (amended): `get_stats` returns the exact count of hot layers and the
sum of their file sizes as accumulated by the `u64` counter, i.e. reduced
modulo `2^64`; on the spec's example (T1 with hot sizes 100 and 200 and a
cold 50, T2 with a hot 300) it returns `{ layers := 3, bytes := 600 }`. -/
theorem get_stats_correct (t : HeatMapTenant) :
    t.get_stats.layers = hotLayerCount t ∧
    t.get_stats.bytes = hotLayerBytes t % 2 ^ 64 ∧
    statsExampleTenant.get_stats = { bytes := 600, layers := 3 } := by
  refine ⟨?_, ?_, by decide⟩
  · rw [get_stats_eq]
  · rw [get_stats_eq]

/-- C3, counterexample to the unamended claim: on a representable tenant
with hot layer sizes `2^63`, `2^63` and `5` (each a valid `u64`),
`get_stats` returns `bytes = 5`, not the exact mathematical sum
`2^64 + 5`. -/
theorem get_stats_bytes_not_exact_sum :
    statsOverflowTenant.get_stats.bytes = 5 ∧
    hotLayerBytes statsOverflowTenant = 2 ^ 64 + 5 ∧
    statsOverflowTenant.get_stats.bytes ≠ hotLayerBytes statsOverflowTenant := by
  refine ⟨by decide, by decide, ?_⟩
  intro h
  rw [get_stats_eq] at h
  revert h
  decide

/-- C9 (amended): `bytes` is accumulated in an unsigned 64-bit integer, and
whenever the exact mathematical sum of the hot layers' file sizes is below
`2^64` the accumulation is exact — no wrap-around or truncation occurs. -/
theorem get_stats_bytes_exact_of_lt (t : HeatMapTenant)
    (h : hotLayerBytes t < 2 ^ 64) :
    t.get_stats.bytes = hotLayerBytes t := by
  rw [get_stats_eq]
  exact Nat.mod_eq_of_lt h

/-- C9, witness: the spec's stats example stays far below `2^64`, so its
byte total is exact. -/
theorem get_stats_bytes_exact_of_lt_witness :
    hotLayerBytes statsExampleTenant < 2 ^ 64 ∧
    statsExampleTenant.get_stats.bytes = hotLayerBytes statsExampleTenant :=
  ⟨by decide, get_stats_bytes_exact_of_lt statsExampleTenant (by decide)⟩

/-- C9, counterexample to the unamended claim: two hot layers of size `2^63`
(each a valid `u64`) sum to exactly `2^64`, and the `u64` accumulator wraps
silently to `0`. -/
theorem get_stats_bytes_wraps :
    bytesOverflowTenant.get_stats.bytes = 0 ∧
    hotLayerBytes bytesOverflowTenant = 2 ^ 64 ∧
    bytesOverflowTenant.get_stats.bytes ≠ hotLayerBytes bytesOverflowTenant := by
  refine ⟨by decide, by decide, ?_⟩
  intro h
  rw [get_stats_eq] at h
  revert h
  decide

/-- C4: looking up any id in `into_timelines_index` finds exactly the last
timeline in the sequence bearing that id; the keys are exactly the ids
occurring in the sequence; and on timelines with ids `[A, B, A]` the index
has 2 entries, with `A` bound to the third timeline. -/
theorem into_timelines_index_spec (t : HeatMapTenant) (id : TimelineId) :
    hmLookup t.into_timelines_index id = lastWithId id t.timelines ∧
    ((hmLookup t.into_timelines_index id).isSome ↔
      id ∈ t.timelines.map (fun tl => tl.timeline_id)) ∧
    idxExampleTenant.into_timelines_index.length = 2 ∧
    hmLookup idxExampleTenant.into_timelines_index "A" = some idxTimelineA3 := by
  have hlookup : hmLookup t.into_timelines_index id = lastWithId id t.timelines := by
    rw [HeatMapTenant.into_timelines_index, hmLookup_index_foldl, hmLookup, Option.or_none]
  refine ⟨hlookup, ?_, by decide, by decide⟩
  rw [hlookup, lastWithId]
  rw [List.find?_isSome]
  constructor
  · rintro ⟨tl, htl, hp⟩
    rw [List.mem_reverse] at htl
    rw [List.mem_map]
    exact ⟨tl, htl, by simpa using hp⟩
  · rw [List.mem_map]
    rintro ⟨tl, htl, hid⟩
    exact ⟨tl, List.mem_reverse.mpr htl, by simp [hid]⟩

/-- C1: decoding the encoding of any representable Tenant Descriptor value
yields the value back unchanged — also when `upload_period_ms` is absent
(it is encoded as `null` and decoded to absent) — and a layer whose `cold`
flag is `false` is also recovered from an encoding that omits `cold`
altogether; `access_time` is carried as integer epoch-seconds and survives
for every representable value. -/
theorem decode_encode_roundtrip (t : HeatMapTenant) (ht : wfTenant t = true)
    (l : HeatMapLayer) (hl : wfLayer l = true) (hcold : l.cold = false) :
    decodeTenant (encodeTenant t) = some t ∧
    decodeLayer (encodeLayerLegacy l) = some l := by
  refine ⟨decodeTenant_encodeTenant t ht, ?_⟩
  rw [decodeLayer_encodeLayerLegacy l hl, ← hcold]

/-- C1, witness: a concrete tenant with a present upload period, a negative
access time, a hot and a cold layer round-trips; a concrete hot layer
survives the cold-omitted encoding. -/
theorem decode_encode_roundtrip_witness :
    wfTenant rtExampleTenant = true ∧
    wfLayer rtExampleHotLayer = true ∧
    rtExampleHotLayer.cold = false ∧
    decodeTenant (encodeTenant rtExampleTenant) = some rtExampleTenant ∧
    decodeLayer (encodeLayerLegacy rtExampleHotLayer) = some rtExampleHotLayer :=
  ⟨by decide, by decide, by decide,
    (decode_encode_roundtrip rtExampleTenant (by decide) rtExampleHotLayer
      (by decide) (by decide)).1,
    (decode_encode_roundtrip rtExampleTenant (by decide) rtExampleHotLayer
      (by decide) (by decide)).2⟩

/-- C7: an encoded tenant object lacking `upload_period_ms` and lacking every
layer's `cold` field decodes successfully (absence of either is never an
error), to a tenant with `upload_period_ms` absent and every layer's `cold`
flag `false`. -/
theorem decode_legacy_defaults (t : HeatMapTenant) (h : wfTenant t = true) :
    decodeTenant (encodeTenantLegacy t) = some (applyLegacyDefaults t) ∧
    (decodeTenant (encodeTenantLegacy t)).isSome = true ∧
    (applyLegacyDefaults t).upload_period_ms = none ∧
    ((applyLegacyDefaults t).timelines.Forall fun tl =>
      tl.layers.Forall fun l => l.cold = false) := by
  have hdec := decodeTenant_encodeTenantLegacy t h
  refine ⟨hdec, by rw [hdec]; rfl, rfl, ?_⟩
  rw [applyLegacyDefaults]
  rw [List.forall_iff_forall_mem]
  intro tl htl
  rw [List.forall_iff_forall_mem]
  intro l hl
  simp only [List.mem_map] at htl
  obtain ⟨tl₀, -, rfl⟩ := htl
  simp only [List.mem_map] at hl
  obtain ⟨l₀, -, rfl⟩ := hl
  rfl

/-- C7, witness: a concrete tenant carrying an upload period and a cold
layer, decoded from its legacy encoding, comes back with the defaults. -/
theorem decode_legacy_defaults_witness :
    wfTenant legacyExampleTenant = true ∧
    decodeTenant (encodeTenantLegacy legacyExampleTenant)
      = some (applyLegacyDefaults legacyExampleTenant) :=
  ⟨by decide, (decode_legacy_defaults legacyExampleTenant (by decide)).1⟩

/-- C8: deserialization fails (returns a decode error, not a defaulted
value) whenever a required field — `generation` or `timelines` of the
tenant, or a layer's `name`, `metadata` or `access_time` — is missing or of
the wrong shape, and an element failure inside `timelines` or `layers`
fails the whole decode. -/
theorem decode_missing_required_fails :
    (∀ fs, getField fs "generation" = none → decodeTenant (.obj fs) = none) ∧
    (∀ fs, getField fs "timelines" = none → decodeTenant (.obj fs) = none) ∧
    (∀ fs gj, getField fs "generation" = some gj → decodeGeneration gj = none →
      decodeTenant (.obj fs) = none) ∧
    (∀ fs tj, getField fs "timelines" = some tj → asArr tj = none →
      decodeTenant (.obj fs) = none) ∧
    (∀ fs, getField fs "name" = none → decodeLayer (.obj fs) = none) ∧
    (∀ fs, getField fs "metadata" = none → decodeLayer (.obj fs) = none) ∧
    (∀ fs, getField fs "access_time" = none → decodeLayer (.obj fs) = none) ∧
    (∀ fs nj, getField fs "name" = some nj → asStr nj = none →
      decodeLayer (.obj fs) = none) ∧
    (∀ fs mj, getField fs "metadata" = some mj → decodeMetadata mj = none →
      decodeLayer (.obj fs) = none) ∧
    (∀ fs tj, getField fs "access_time" = some tj → asNum tj = none →
      decodeLayer (.obj fs) = none) ∧
    (∀ fs tjs j, getField fs "timelines" = some (.arr tjs) → j ∈ tjs →
      decodeTimeline j = none → decodeTenant (.obj fs) = none) ∧
    (∀ fs ljs j, getField fs "layers" = some (.arr ljs) → j ∈ ljs →
      decodeLayer j = none → decodeTimeline (.obj fs) = none) := by
  refine ⟨?_, ?_, ?_, ?_, ?_, ?_, ?_, ?_, ?_, ?_, ?_, ?_⟩
  · intro fs h
    rw [decodeTenant]
    simp only [asObj, Option.some_bind, h, Option.none_bind]
  · intro fs h
    rw [decodeTenant]
    simp only [asObj, Option.some_bind, h, Option.none_bind, bind_const_none]
  · intro fs gj h1 h2
    rw [decodeTenant]
    simp only [asObj, Option.some_bind, h1, h2, Option.none_bind, bind_const_none]
  · intro fs tj h1 h2
    rw [decodeTenant]
    simp only [asObj, Option.some_bind, h1, h2, Option.none_bind, bind_const_none]
  · intro fs h
    rw [decodeLayer]
    simp only [asObj, Option.some_bind, h, Option.none_bind]
  · intro fs h
    rw [decodeLayer]
    simp only [asObj, Option.some_bind, h, Option.none_bind, bind_const_none]
  · intro fs h
    rw [decodeLayer]
    simp only [asObj, Option.some_bind, h, Option.none_bind, bind_const_none]
  · intro fs nj h1 h2
    rw [decodeLayer]
    simp only [asObj, Option.some_bind, h1, h2, Option.none_bind, bind_const_none]
  · intro fs mj h1 h2
    rw [decodeLayer]
    simp only [asObj, Option.some_bind, h1, h2, Option.none_bind, bind_const_none]
  · intro fs tj h1 h2
    rw [decodeLayer]
    simp only [asObj, Option.some_bind, h1, h2, Option.none_bind, bind_const_none]
  · intro fs tjs j h1 hj hdec
    rw [decodeTenant]
    simp only [asObj, Option.some_bind, h1, asArr,
      decodeList_eq_none_of_mem decodeTimeline tjs j hj hdec,
      Option.none_bind, bind_const_none]
  · intro fs ljs j h1 hj hdec
    rw [decodeTimeline]
    simp only [asObj, Option.some_bind, h1, asArr,
      decodeList_eq_none_of_mem decodeLayer ljs j hj hdec,
      Option.none_bind, bind_const_none]

/-- C8, witness: concrete malformed documents — an empty tenant object, a
boolean `generation`, an empty layer object, and a timeline containing one
undecodable layer — all fail to decode. -/
theorem decode_missing_required_fails_witness :
    decodeTenant (.obj []) = none ∧
    decodeTenant (.obj [("generation", .bool true), ("timelines", .arr [])]) = none ∧
    decodeLayer (.obj []) = none ∧
    decodeTimeline (.obj [("timeline_id", .str "t"), ("layers", .arr [.obj []])]) = none := by
  obtain ⟨c1, c2, c3, c4, c5, c6, c7, c8, c9, c10, c11, c12⟩ :=
    decode_missing_required_fails
  exact ⟨c1 [] rfl,
    c3 [("generation", .bool true), ("timelines", .arr [])] (.bool true) rfl rfl,
    c5 [] rfl,
    c12 [("timeline_id", .str "t"), ("layers", .arr [.obj []])] [.obj []] (.obj [])
      rfl (List.mem_singleton.mpr rfl) (c5 [] rfl)⟩

end Heatmap
